import Mathlib

/-!
Shallow embedding of the chores-tracker application (`src/app.py`).

The application stores a single family's state in three Postgres tables
(`kids`, `chores`, `ledger`); `family_id` is fixed for one deployment
(`get_or_create_family_id` keyed on the `FAMILY_CODE` environment variable),
so it is omitted here and the three tables become three lists.  `SERIAL`
ledger ids are modelled with an explicit `next_id` counter.  Timestamps
(`time.time()`, a float) are modelled at whole-second resolution as `Nat`;
the conversion from a timestamp to a local calendar date
(`datetime.fromtimestamp(ts).date()`) is kept abstract as a parameter
`dateOf : Nat → Int`, since no verified property depends on the time zone.
-/

namespace ChoresApp

/-- Python's `str.strip()`: drop leading, then trailing, whitespace.
(Python strips a slightly larger whitespace set than `Char.isWhitespace`;
the difference plays no part in any property below.)  Defined over the
character list so that concrete inputs evaluate. -/
def pyStrip (s : String) : String :=
  String.mk (List.rdropWhile Char.isWhitespace
    (s.toList.dropWhile Char.isWhitespace))

/-- Stripping an already stripped string changes nothing. -/
theorem pyStrip_idempotent (s : String) : pyStrip (pyStrip s) = pyStrip s := by
  unfold pyStrip
  congr 1
  show List.rdropWhile _ (List.dropWhile _ (List.rdropWhile Char.isWhitespace
    (s.toList.dropWhile Char.isWhitespace))) = _
  have h1 : (List.rdropWhile Char.isWhitespace
      (s.toList.dropWhile Char.isWhitespace)).dropWhile Char.isWhitespace =
      List.rdropWhile Char.isWhitespace (s.toList.dropWhile Char.isWhitespace) := by
    rw [List.dropWhile_eq_self_iff]
    intro hl hp
    have hpre := List.rdropWhile_prefix Char.isWhitespace
      (s.toList.dropWhile Char.isWhitespace)
    have hAl : 0 < (s.toList.dropWhile Char.isWhitespace).length :=
      lt_of_lt_of_le hl hpre.length_le
    have hget := hpre.getElem (n := 0) hl
    simp only [List.get_eq_getElem] at hp
    rw [hget] at hp
    exact List.dropWhile_get_zero_not Char.isWhitespace s.toList hAl
      (by simpa using hp)
  rw [h1, List.rdropWhile_idempotent]

/-- A row of the `kids` table: `kids(name, goal_cents)`. -/
structure Kid where
  name : String
  goal_cents : Int
  deriving Repr, DecidableEq

/-- A row of the `chores` table: `chores(chore_key, title, reward_cents,
requires_approval)`. -/
structure Chore where
  chore_key : String
  title : String
  reward_cents : Int
  requires_approval : Bool
  deriving Repr, DecidableEq

/-- A row of the `ledger` table: `ledger(id, kid_name, chore_key, chore_title,
reward_cents, ts, status)`.  `status` is the TEXT column holding one of
"pending", "approved", "denied", "paid". -/
structure LedgerEntry where
  id : Nat
  kid_name : String
  chore_key : String
  chore_title : String
  reward_cents : Int
  ts : Nat
  status : String
  deriving Repr, DecidableEq

/-- The whole persisted state of one family.  `next_id` models the `SERIAL`
sequence behind `ledger.id`. -/
structure AppState where
  kids : List Kid
  chores : List Chore
  ledger : List LedgerEntry
  next_id : Nat
  deriving Repr, DecidableEq

/-- `add_kid_db`: strips the name, returns unchanged on empty, and inserts
with `ON CONFLICT (family_id, name) DO NOTHING` (so an existing name is kept
as is).  New kids get `goal_cents = 0` (column default). -/
def add_kid_db (st : AppState) (name : String) : AppState :=
  let name := pyStrip name
  if name = "" then st
  else if st.kids.any (fun k => k.name == name) then st
  else { st with kids := st.kids ++ [{ name := name, goal_cents := 0 }] }

/-- `set_goal_db`: `UPDATE kids SET goal_cents=%s WHERE name=%s` (no-op when
the kid is unknown, since the UPDATE matches no row). -/
def set_goal_db (st : AppState) (kid_name : String) (goal_cents : Int) : AppState :=
  { st with kids := st.kids.map (fun k =>
      if k.name = kid_name then { k with goal_cents := goal_cents } else k) }

/-- `add_or_update_chore_db`: strips key and title, returns unchanged when
either is empty or `cents < 0`, then `INSERT ... ON CONFLICT (family_id,
chore_key) DO UPDATE SET title, reward_cents, requires_approval`. -/
def add_or_update_chore_db (st : AppState) (key title : String) (cents : Int)
    (requires_approval : Bool) : AppState :=
  let key := pyStrip key
  let title := pyStrip title
  if key = "" ∨ title = "" then st
  else if cents < 0 then st
  else if st.chores.any (fun c => c.chore_key == key) then
    { st with chores := st.chores.map (fun c =>
        if c.chore_key = key then
          { c with title := title, reward_cents := cents,
                   requires_approval := requires_approval }
        else c) }
  else
    { st with chores := st.chores ++
        [{ chore_key := key, title := title, reward_cents := cents,
           requires_approval := requires_approval }] }

/-- `delete_chore_db`: `DELETE FROM chores WHERE chore_key=%s`. -/
def delete_chore_db (st : AppState) (key : String) : AppState :=
  { st with chores := st.chores.filter (fun c => c.chore_key != key) }

/-- `submit_chore_db`: fetches the chore by key (`UNIQUE(family_id,
chore_key)`, so `find?` matches `fetchone`); when absent, returns with no
change; otherwise inserts one ledger row whose status is "pending" when the
chore requires approval and "approved" otherwise, with the chore's title and
reward copied in and `ts = time.time()` (the `now` argument).  The kid name
is inserted as given: the function never consults the `kids` table. -/
def submit_chore_db (st : AppState) (kid_name chore_key : String) (now : Nat) : AppState :=
  match st.chores.find? (fun c => c.chore_key == chore_key) with
  | none => st
  | some chore =>
    { st with
      ledger := st.ledger ++
        [{ id := st.next_id, kid_name := kid_name, chore_key := chore_key,
           chore_title := chore.title, reward_cents := chore.reward_cents,
           ts := now,
           status := if chore.requires_approval then "pending" else "approved" }],
      next_id := st.next_id + 1 }

/-- `approve_deny_db`: `UPDATE ledger SET status=%s WHERE id=%s AND
status='pending'` — only a pending row with the given id can change. -/
def approve_deny_db (st : AppState) (ledger_id : Nat) (approve : Bool) : AppState :=
  let new_status := if approve then "approved" else "denied"
  { st with ledger := st.ledger.map (fun e =>
      if e.id = ledger_id ∧ e.status = "pending" then { e with status := new_status }
      else e) }

/-- `mark_paid_db`: `UPDATE ledger SET status='paid' WHERE kid_name=%s AND
status='approved'`.  The Python function body ends without a `return`
statement, so its value is `None`; the second component records that value in
a type wide enough to state the spec's claim about it, and is always
`none`. -/
def mark_paid_db (st : AppState) (kid_name : String) : AppState × Option Int :=
  ({ st with ledger := st.ledger.map (fun e =>
      if e.kid_name = kid_name ∧ e.status = "approved" then { e with status := "paid" }
      else e) },
   none)

/-- `owed_by_kid`, read at one kid: `SELECT COALESCE(SUM(reward_cents),0) FROM
ledger WHERE kid_name=%s AND status='approved'` (call sites take
`.get(name, 0)`, so a kid absent from the grouped result reads as 0). -/
def owed_by_kid (st : AppState) (kid : String) : Int :=
  ((st.ledger.filter (fun e => e.kid_name == kid && e.status == "approved")).map
    (fun e => e.reward_cents)).sum

/-- The four default chores of `seed_default_chores`. -/
def default_chores : List Chore :=
  [{ chore_key := "make_bed", title := "Make bed", reward_cents := 50,
     requires_approval := false },
   { chore_key := "dishes", title := "Unload dishwasher", reward_cents := 100,
     requires_approval := true },
   { chore_key := "trash", title := "Take out trash", reward_cents := 75,
     requires_approval := false },
   { chore_key := "homework", title := "Homework (checked)", reward_cents := 100,
     requires_approval := true }]

/-- `seed_default_chores`: counts the family's chores and returns untouched
when the count is positive; otherwise inserts the four defaults. -/
def seed_default_chores (st : AppState) : AppState :=
  if st.chores.length > 0 then st
  else { st with chores := st.chores ++ default_chores }

/-- `ensure_family_ready`: `init_db` (schema DDL) and
`get_or_create_family_id` change no row of an existing family, so on this
single-family state the call reduces to `seed_default_chores`. -/
def ensure_family_ready (st : AppState) : AppState :=
  seed_default_chores st

/-- Whether a status string counts towards the streak:
`r["status"] in ("pending", "approved", "paid")` in `streak_for_kid`. -/
def streak_counts (status : String) : Bool :=
  status == "pending" || status == "approved" || status == "paid"

/-- The calendar days (`datetime.fromtimestamp(ts).date()`, abstracted as
`dateOf`) on which the kid has at least one ledger entry whose status is
"pending", "approved" or "paid".  The Python code collects them into a set;
only membership is used, so a list stands in. -/
def streak_days (dateOf : Nat → Int) (st : AppState) (kid : String) : List Int :=
  ((st.ledger.filter (fun e => e.kid_name == kid && streak_counts e.status)).map
    (fun e => dateOf e.ts))

/-- The `while d in days: streak += 1; d = d - timedelta(days=1)` loop of
`streak_for_kid`, with explicit fuel for termination.  The fuel used below,
one more than the number of collected days, always exceeds the number of
iterations the loop can make (the visited days are pairwise distinct members
of `days`), so the fuel never runs out before the loop's own exit test. -/
def streak_loop (days : List Int) (d : Int) : Nat → Nat
  | 0 => 0
  | fuel + 1 => if d ∈ days then streak_loop days (d - 1) fuel + 1 else 0

/-- `streak_for_kid`: collect the qualifying days, then walk backward from
`today` counting consecutive members. -/
def streak_for_kid (dateOf : Nat → Int) (today : Int) (st : AppState) (kid : String) : Nat :=
  let days := streak_days dateOf st kid
  streak_loop days today (days.length + 1)

/-- The session cookie bits the application reads: `session["family_ok"]`
and `session["parent_ok"]` (absent keys read as false). -/
structure Session where
  family_ok : Bool
  parent_ok : Bool
  deriving Repr, DecidableEq

/-- A redirect response, the only response value the modelled handlers
produce besides rendered pages. -/
inductive Response where
  | redirect (endpoint : String)
  deriving Repr, DecidableEq

/-- `require_parent`: when `session.get("parent_ok")` is not set it returns
`redirect(url_for("parent_login"))`, otherwise it falls through and returns
`None`. -/
def require_parent (s : Session) : Option Response :=
  if !s.parent_ok then some (Response.redirect "parent_login") else none

/-- The `POST /parent/add_kid` handler `parent_add_kid`.  As in the source,
the value `require_parent()` produces is not returned or raised — the
handler's remaining statements run regardless of it. -/
def parent_add_kid (sess : Session) (st : AppState) (form_kid_name : String) :
    AppState × Response :=
  let _gate := require_parent sess
  let st := ensure_family_ready st
  let name := pyStrip form_kid_name
  (add_kid_db st name, Response.redirect "parent_dashboard")

/-- The `POST /parent/pay` handler `parent_pay_kid`; the `require_parent()`
value is discarded exactly as in the source. -/
def parent_pay_kid (sess : Session) (st : AppState) (form_kid_name : String) :
    AppState × Response :=
  let _gate := require_parent sess
  let st := ensure_family_ready st
  let kid_name := pyStrip form_kid_name
  ((mark_paid_db st kid_name).1, Response.redirect "parent_dashboard")

/-- Decimal digits read left to right into an accumulator; `none` as soon as
a non-digit appears (Python's `int` raises `ValueError` then). -/
def read_digits : List Char → Nat → Option Nat
  | [], acc => some acc
  | c :: cs, acc =>
    if c.isDigit then read_digits cs (acc * 10 + (c.toNat - 48)) else none

/-- Python's `int(raw)` under `try/except ValueError` defaulting to 0, as in
`parent_save_chore` and `parent_set_goal`: an optional sign followed by at
least one decimal digit (the callers have already stripped whitespace);
anything else raises and so yields 0. -/
def int_or_zero (raw : String) : Int :=
  match raw.toList with
  | [] => 0
  | '-' :: c :: cs =>
    match read_digits (c :: cs) 0 with
    | some n => -(n : Int)
    | none => 0
  | '+' :: c :: cs =>
    match read_digits (c :: cs) 0 with
    | some n => (n : Int)
    | none => 0
  | c :: cs =>
    if c.isDigit then
      match read_digits (c :: cs) 0 with
      | some n => (n : Int)
      | none => 0
    else 0

/-- The `POST /parent/chores/save` handler `parent_save_chore`: reads the
form fields `chore_key`, `title`, `reward_cents` and `requires_approval`,
strips the strings, parses the cents (0 on parse failure, clamped to ≥ 0),
and calls `add_or_update_chore_db`.  The chore's key is taken verbatim from
the `chore_key` field; the title plays no part in it. -/
def parent_save_chore (sess : Session) (st : AppState)
    (form_key form_title form_cents form_requires : String) : AppState × Response :=
  let _gate := require_parent sess
  let st := ensure_family_ready st
  let key := pyStrip form_key
  let title := pyStrip form_title
  let requires := form_requires == "1"
  let cents := int_or_zero (pyStrip form_cents)
  let cents := if cents < 0 then 0 else cents
  (add_or_update_chore_db st key title cents requires, Response.redirect "parent_edit_chores")

/-- One ledger-mutating operation, for stating properties of operation
sequences: `submit_chore_db`, `approve_deny_db` or `mark_paid_db`. -/
inductive Op where
  | submit (kid_name chore_key : String) (now : Nat)
  | approveDeny (ledger_id : Nat) (approve : Bool)
  | markPaid (kid_name : String)
  deriving Repr, DecidableEq

/-- Apply one operation to the state. -/
def applyOp (st : AppState) : Op → AppState
  | Op.submit k c n => submit_chore_db st k c n
  | Op.approveDeny i a => approve_deny_db st i a
  | Op.markPaid k => (mark_paid_db st k).1

/-- Apply a sequence of operations, first element first. -/
def applyOps (st : AppState) (ops : List Op) : AppState :=
  ops.foldl applyOp st

/-- The transitions the ledger state machine may make over any number of
operations: stay put, leave "pending" for "approved", "denied" or (through
"approved") "paid", or leave "approved" for "paid". -/
def statusReach (before after : String) : Prop :=
  after = before
  ∨ (before = "pending" ∧ (after = "approved" ∨ after = "denied" ∨ after = "paid"))
  ∨ (before = "approved" ∧ after = "paid")

/-- Example state: a family with the four default chores, no kids and an
empty ledger (what `ensure_family_ready` produces on first contact). -/
def seeded_state : AppState :=
  { kids := [], chores := default_chores, ledger := [], next_id := 0 }

/-- Example state: kid Ann with one approved "Make bed" entry worth 50
cents. -/
def ann_state : AppState :=
  { kids := [{ name := "Ann", goal_cents := 0 }],
    chores := default_chores,
    ledger := [{ id := 0, kid_name := "Ann", chore_key := "make_bed",
                 chore_title := "Make bed", reward_cents := 50, ts := 100,
                 status := "approved" }],
    next_id := 1 }

/-- After `mark_paid_db`, no entry of the kid still passes the
"approved" filter of `owed_by_kid`. -/
theorem mark_paid_clears_approved (l : List LedgerEntry) (kid : String) :
    (l.map (fun e =>
        if e.kid_name = kid ∧ e.status = "approved" then { e with status := "paid" }
        else e)).filter (fun e => e.kid_name == kid && e.status == "approved") = [] := by
  induction l with
  | nil => rfl
  | cons e l ih =>
    simp only [List.map_cons, List.filter_cons]
    by_cases h : e.kid_name = kid ∧ e.status = "approved"
    · rw [if_pos h]
      simpa using ih
    · rw [if_neg h]
      have : (e.kid_name == kid && e.status == "approved") = false := by
        rcases not_and_or.mp h with h1 | h1 <;> simp [h1]
      simpa [this] using ih

/-- C6: `owed_by_kid(k)` is the sum of `reward_cents` over the kid's
"approved" ledger entries, and immediately after `mark_paid_db(k)` it
is 0. -/
theorem C6_owed_by_kid (st : AppState) (kid : String) :
    owed_by_kid st kid =
      ((st.ledger.filter (fun e => e.kid_name == kid && e.status == "approved")).map
        (fun e => e.reward_cents)).sum
  ∧ owed_by_kid (mark_paid_db st kid).1 kid = 0 := by
  refine ⟨rfl, ?_⟩
  unfold owed_by_kid mark_paid_db
  rw [mark_paid_clears_approved]
  rfl

/-- C10: `seed_default_chores` (via `ensure_family_ready`) fires exactly when
the family's chore collection is empty — whatever way it became empty — and
then inserts the four fixed defaults; with at least one chore present the
state is untouched, and kids and ledger are never touched. -/
theorem C10_default_seeding (st : AppState) :
    (st.chores = [] → (ensure_family_ready st).chores =
      [{ chore_key := "make_bed", title := "Make bed", reward_cents := 50,
         requires_approval := false },
       { chore_key := "dishes", title := "Unload dishwasher", reward_cents := 100,
         requires_approval := true },
       { chore_key := "trash", title := "Take out trash", reward_cents := 75,
         requires_approval := false },
       { chore_key := "homework", title := "Homework (checked)", reward_cents := 100,
         requires_approval := true }])
  ∧ (st.chores ≠ [] → ensure_family_ready st = st)
  ∧ (ensure_family_ready st).kids = st.kids
  ∧ (ensure_family_ready st).ledger = st.ledger := by
  unfold ensure_family_ready seed_default_chores
  rcases h : st.chores with _ | ⟨c, cs⟩ <;>
    simp [h, default_chores]

/-- C9: re-saving a chore id via `add_or_update_chore_db` (and deleting one
via `delete_chore_db`) never touches the ledger or the kids; chores with a
different key survive untouched, and a chore of the saved key in the result
is either an untouched pre-existing chore (the no-op cases) or carries
exactly the saved title, reward and approval flag. -/
theorem C9_upsert_frame (st : AppState) (key title : String) (cents : Int) (req : Bool) :
    (add_or_update_chore_db st key title cents req).ledger = st.ledger
  ∧ (add_or_update_chore_db st key title cents req).kids = st.kids
  ∧ (delete_chore_db st key).ledger = st.ledger
  ∧ (delete_chore_db st key).kids = st.kids
  ∧ (∀ c ∈ st.chores, c.chore_key ≠ pyStrip key →
       c ∈ (add_or_update_chore_db st key title cents req).chores)
  ∧ (∀ c ∈ (add_or_update_chore_db st key title cents req).chores,
       c.chore_key = pyStrip key →
         c ∈ st.chores ∨
         c = { chore_key := pyStrip key, title := pyStrip title, reward_cents := cents,
               requires_approval := req }) := by
  unfold add_or_update_chore_db delete_chore_db
  by_cases h0 : pyStrip key = "" ∨ pyStrip title = ""
  · rw [if_pos h0]
    refine ⟨rfl, rfl, rfl, rfl, fun c hc _ => hc, fun c hc _ => Or.inl hc⟩
  · rw [if_neg h0]
    by_cases h1 : cents < 0
    · rw [if_pos h1]
      refine ⟨rfl, rfl, rfl, rfl, fun c hc _ => hc, fun c hc _ => Or.inl hc⟩
    · rw [if_neg h1]
      by_cases h2 : st.chores.any (fun c => c.chore_key == pyStrip key)
      · rw [if_pos h2]
        refine ⟨rfl, rfl, rfl, rfl, ?_, ?_⟩
        · intro c hc hne
          refine List.mem_map.mpr ⟨c, hc, ?_⟩
          rw [if_neg (by simpa using hne)]
        · intro c hc hk
          rcases List.mem_map.mp hc with ⟨a, ha, rfl⟩
          by_cases hak : a.chore_key = pyStrip key
          · right
            rw [if_pos hak]
            simp [hak]
          · left
            rw [if_neg hak] at hk ⊢
            exact ha
      · rw [if_neg h2]
        refine ⟨rfl, rfl, rfl, rfl, ?_, ?_⟩
        · intro c hc _
          exact List.mem_append_left _ hc
        · intro c hc hk
          rcases List.mem_append.mp hc with h | h
          · exact Or.inl h
          · right
            simpa using h

/-- C1: the parent-PIN gate does not hold.  `require_parent` does compute a
redirect to the parent login when `parent_ok` is unset, but every caller
discards that value, so the mutation runs anyway: without the PIN grant,
`POST /parent/add_kid` still inserts the kid and `POST /parent/pay` still
marks Ann's approved entry paid. -/
theorem C1_parent_pin_not_enforced :
    require_parent { family_ok := true, parent_ok := false } =
      some (Response.redirect "parent_login")
  ∧ (parent_add_kid { family_ok := true, parent_ok := false } seeded_state "Zoe").1.kids =
      [{ name := "Zoe", goal_cents := 0 }]
  ∧ (parent_pay_kid { family_ok := true, parent_ok := false } ann_state "Ann").1.ledger =
      [{ id := 0, kid_name := "Ann", chore_key := "make_bed",
         chore_title := "Make bed", reward_cents := 50, ts := 100,
         status := "paid" }] := by
  refine ⟨rfl, ?_, ?_⟩ <;> rfl

/-- C2 counterexample: on Ann's single approved 50-cent entry, `mark_paid_db`
transitions 50 cents' worth of entries, but the Python function's value is
`None` — not the claimed sum (50) of the transitioned cents. -/
theorem C2_mark_paid_returns_nothing :
    (mark_paid_db ann_state "Ann").2 = none
  ∧ (mark_paid_db ann_state "Ann").2 ≠ some 50
  ∧ ((ann_state.ledger.filter (fun e => e.kid_name == "Ann" && e.status == "approved")).map
      (fun e => e.reward_cents)).sum = 50
  ∧ (mark_paid_db ann_state "Ann").1.ledger =
      [{ id := 0, kid_name := "Ann", chore_key := "make_bed",
         chore_title := "Make bed", reward_cents := 50, ts := 100,
         status := "paid" }] := by
  refine ⟨rfl, ?_, rfl, rfl⟩
  intro h
  simp [mark_paid_db] at h

/-- C2 (amended): `mark_paid_db(k)` sets every "approved" entry of kid `k` to
"paid", leaves every other entry (and the kids and chores) unchanged — and
returns no value (`None`), not the transitioned total. -/
theorem C2_mark_paid_transitions (st : AppState) (kid : String) :
    (∀ (i : Nat) (e : LedgerEntry), st.ledger[i]? = some e → e.kid_name = kid → e.status = "approved" →
        (mark_paid_db st kid).1.ledger[i]? = some { e with status := "paid" })
  ∧ (∀ (i : Nat) (e : LedgerEntry), st.ledger[i]? = some e → ¬(e.kid_name = kid ∧ e.status = "approved") →
        (mark_paid_db st kid).1.ledger[i]? = some e)
  ∧ (mark_paid_db st kid).1.ledger.length = st.ledger.length
  ∧ (mark_paid_db st kid).1.kids = st.kids
  ∧ (mark_paid_db st kid).1.chores = st.chores
  ∧ (mark_paid_db st kid).2 = none := by
  refine ⟨?_, ?_, ?_, rfl, rfl, rfl⟩
  · intro i e h h1 h2
    show (st.ledger.map _)[i]? = _
    rw [List.getElem?_map, h]
    simp [h1, h2]
  · intro i e h hne
    show (st.ledger.map _)[i]? = _
    rw [List.getElem?_map, h]
    simp [if_neg hne]
  · exact List.length_map _ _

/-- C3 counterexample: "Ghost" is not a known kid (the freshly seeded family
has no kids at all), yet submitting the known chore "make_bed" for "Ghost" is
not a no-op: one auto-approved entry is appended to the ledger. -/
theorem C3_submit_unknown_kid_appends :
    seeded_state.kids = []
  ∧ (submit_chore_db seeded_state "Ghost" "make_bed" 1000).ledger =
      [{ id := 0, kid_name := "Ghost", chore_key := "make_bed",
         chore_title := "Make bed", reward_cents := 50, ts := 1000,
         status := "approved" }]
  ∧ submit_chore_db seeded_state "Ghost" "make_bed" 1000 ≠ seeded_state := by
  have h2 : (submit_chore_db seeded_state "Ghost" "make_bed" 1000).ledger =
      [{ id := 0, kid_name := "Ghost", chore_key := "make_bed",
         chore_title := "Make bed", reward_cents := 50, ts := 1000,
         status := "approved" }] := rfl
  refine ⟨rfl, h2, fun h => ?_⟩
  rw [h] at h2
  exact List.noConfusion h2

/-- C3 (amended): `submit_chore_db` is a no-op exactly when the chore id is
unknown — the kid name is never validated; on a known chore it appends
exactly one entry whose status is "pending" iff the chore requires approval
(so never "pending" for an auto-approved chore), with the chore's reward
copied and the submission time as timestamp. -/
theorem C3_submit_chore (st : AppState) (kid chore_key : String) (now : Nat) :
    ((∀ c ∈ st.chores, c.chore_key ≠ chore_key) →
        submit_chore_db st kid chore_key now = st)
  ∧ (∀ chore, st.chores.find? (fun c => c.chore_key == chore_key) = some chore →
        (submit_chore_db st kid chore_key now).ledger =
          st.ledger ++
            [{ id := st.next_id, kid_name := kid, chore_key := chore_key,
               chore_title := chore.title, reward_cents := chore.reward_cents,
               ts := now,
               status := if chore.requires_approval then "pending" else "approved" }])
  ∧ (submit_chore_db st kid chore_key now).kids = st.kids
  ∧ (submit_chore_db st kid chore_key now).chores = st.chores := by
  rcases h : st.chores.find? (fun c => c.chore_key == chore_key) with _ | chore
  · refine ⟨fun _ => ?_, fun c hc => ?_, ?_, ?_⟩
    · unfold submit_chore_db; rw [h]
    · rw [h] at hc; exact Option.noConfusion hc
    · unfold submit_chore_db; rw [h]
    · unfold submit_chore_db; rw [h]
  · refine ⟨fun hall => ?_, fun c hc => ?_, ?_, ?_⟩
    · exact absurd (by simpa using List.find?_some h)
        (hall chore (List.mem_of_find?_eq_some h))
    · rw [h] at hc
      injection hc with hc
      subst hc
      unfold submit_chore_db; rw [h]
    · unfold submit_chore_db; rw [h]
    · unfold submit_chore_db; rw [h]

/-- C4 counterexample: saving a chore through `parent_save_chore` with form
key "vacuum" and title "Vacuum Room!!" stores the chore under id "vacuum" —
the id is the form's `chore_key` field, not a slug of the title — and no
chore with id "vacuum_room" exists afterwards. -/
theorem C4_chore_id_not_slug :
    (∃ c ∈ ((parent_save_chore { family_ok := true, parent_ok := true } seeded_state
        "vacuum" "Vacuum Room!!" "75" "1").1).chores,
      c.title = "Vacuum Room!!" ∧ c.chore_key = "vacuum")
  ∧ (∀ c ∈ ((parent_save_chore { family_ok := true, parent_ok := true } seeded_state
        "vacuum" "Vacuum Room!!" "75" "1").1).chores,
      c.chore_key ≠ "vacuum_room") := by
  have h : ((parent_save_chore { family_ok := true, parent_ok := true } seeded_state
      "vacuum" "Vacuum Room!!" "75" "1").1).chores =
      default_chores ++ [{ chore_key := "vacuum", title := "Vacuum Room!!",
                           reward_cents := 75, requires_approval := true }] := rfl
  rw [h]
  refine ⟨⟨{ chore_key := "vacuum", title := "Vacuum Room!!",
             reward_cents := 75, requires_approval := true },
           by simp, rfl, rfl⟩, ?_⟩
  intro c hc
  simp only [default_chores, List.mem_append, List.mem_cons, List.not_mem_nil,
    or_false] at hc
  rcases hc with (h | h | h | h) | h <;> subst h <;> simp

/-- Every chore present after `add_or_update_chore_db` was already there or
carries the (stripped) saved key. -/
theorem upsert_chore_key (st : AppState) (key title : String) (cents : Int)
    (req : Bool) (c : Chore)
    (hc : c ∈ (add_or_update_chore_db st key title cents req).chores) :
    c ∈ st.chores ∨ c.chore_key = pyStrip key := by
  unfold add_or_update_chore_db at hc
  by_cases h0 : pyStrip key = "" ∨ pyStrip title = ""
  · rw [if_pos h0] at hc; exact Or.inl hc
  · rw [if_neg h0] at hc
    by_cases h1 : cents < 0
    · rw [if_pos h1] at hc; exact Or.inl hc
    · rw [if_neg h1] at hc
      by_cases h2 : st.chores.any (fun c => c.chore_key == pyStrip key)
      · rw [if_pos h2] at hc
        rcases List.mem_map.mp hc with ⟨a, ha, rfl⟩
        by_cases hak : a.chore_key = pyStrip key
        · rw [if_pos hak]; exact Or.inr hak
        · rw [if_neg hak]; exact Or.inl ha
      · rw [if_neg h2] at hc
        rcases List.mem_append.mp hc with h | h
        · exact Or.inl h
        · right; simp only [List.mem_singleton] at h; rw [h]

/-- With a nonempty stripped key and title and a non-negative reward,
`add_or_update_chore_db` leaves a chore carrying exactly that key and
title. -/
theorem upsert_chore_saves (st : AppState) (key title : String) (cents : Int)
    (req : Bool) (hk : pyStrip key ≠ "") (ht : pyStrip title ≠ "")
    (hcents : ¬cents < 0) :
    ∃ c ∈ (add_or_update_chore_db st key title cents req).chores,
      c.chore_key = pyStrip key ∧ c.title = pyStrip title := by
  unfold add_or_update_chore_db
  rw [if_neg (by tauto), if_neg hcents]
  by_cases h2 : st.chores.any (fun c => c.chore_key == pyStrip key)
  · rw [if_pos h2]
    rcases List.any_eq_true.mp h2 with ⟨a, ha, hak⟩
    have hak' : a.chore_key = pyStrip key := by simpa using hak
    refine ⟨_, List.mem_map.mpr ⟨a, ha, rfl⟩, ?_⟩
    rw [if_pos hak']
    exact ⟨hak', rfl⟩
  · rw [if_neg h2]
    exact ⟨_, List.mem_append_right _ (List.mem_singleton.mpr rfl), rfl, rfl⟩

/-- C4 (amended): the id of a chore created or updated via
`parent_save_chore` is the stripped `chore_key` form field: every chore in
the resulting collection either predates the save or carries that key, and
with nonempty stripped key and title a chore with exactly that key and the
(stripped) title is present — the title contributes nothing to the id. -/
theorem C4_chore_id_from_form (sess : Session) (st : AppState)
    (fkey ftitle fcents freq : String) :
    (∀ c ∈ ((parent_save_chore sess st fkey ftitle fcents freq).1).chores,
        c ∈ (ensure_family_ready st).chores ∨ c.chore_key = pyStrip fkey)
  ∧ (pyStrip fkey ≠ "" → pyStrip ftitle ≠ "" →
        ∃ c ∈ ((parent_save_chore sess st fkey ftitle fcents freq).1).chores,
          c.chore_key = pyStrip fkey ∧ c.title = pyStrip ftitle) := by
  constructor
  · intro c hc
    have := upsert_chore_key (ensure_family_ready st) (pyStrip fkey) (pyStrip ftitle)
      (if int_or_zero (pyStrip fcents) < 0 then 0 else int_or_zero (pyStrip fcents))
      (freq == "1") c hc
    rwa [pyStrip_idempotent] at this
  · intro hk ht
    have h := upsert_chore_saves (ensure_family_ready st) (pyStrip fkey)
      (pyStrip ftitle)
      (if int_or_zero (pyStrip fcents) < 0 then 0 else int_or_zero (pyStrip fcents))
      (freq == "1")
      (by rwa [pyStrip_idempotent]) (by rwa [pyStrip_idempotent])
      (by split <;> omega)
    simpa [pyStrip_idempotent] using h

/-- C7: `approve_deny_db` is a no-op unless some entry has the given id and
is currently "pending"; a pending entry with that id becomes "approved" or
"denied" according to the flag, and any entry that is not pending with that
id — already approved, denied, paid, or simply a different entry — is
untouched. -/
theorem C7_approve_deny (st : AppState) (lid : Nat) (approve : Bool) :
    ((∀ e ∈ st.ledger, ¬(e.id = lid ∧ e.status = "pending")) →
        approve_deny_db st lid approve = st)
  ∧ (∀ (i : Nat) (e : LedgerEntry), st.ledger[i]? = some e → e.id = lid → e.status = "pending" →
        (approve_deny_db st lid approve).ledger[i]? =
          some { e with status := if approve then "approved" else "denied" })
  ∧ (∀ (i : Nat) (e : LedgerEntry), st.ledger[i]? = some e → ¬(e.id = lid ∧ e.status = "pending") →
        (approve_deny_db st lid approve).ledger[i]? = some e)
  ∧ (approve_deny_db st lid approve).kids = st.kids
  ∧ (approve_deny_db st lid approve).chores = st.chores := by
  refine ⟨?_, ?_, ?_, rfl, rfl⟩
  · intro hall
    have hmap : st.ledger.map (fun e =>
        if e.id = lid ∧ e.status = "pending" then
          { e with status := if approve then "approved" else "denied" }
        else e) = st.ledger := by
      conv_rhs => rw [← List.map_id st.ledger]
      exact List.map_congr_left fun e he => by rw [if_neg (hall e he)]; rfl
    unfold approve_deny_db
    cases st
    simpa using hmap
  · intro i e h h1 h2
    show (st.ledger.map _)[i]? = _
    rw [List.getElem?_map, h]
    simp [h1, h2]
  · intro i e h hne
    show (st.ledger.map _)[i]? = _
    rw [List.getElem?_map, h]
    simp [if_neg hne]

/-- Ann's ledger entry for "Make bed", at the given status. -/
def ann_entry (status : String) : LedgerEntry :=
  { id := 0, kid_name := "Ann", chore_key := "make_bed",
    chore_title := "Make bed", reward_cents := 50, ts := 100, status := status }

/-- `statusReach` is transitive: chaining two allowed evolutions yields an
allowed evolution. -/
theorem statusReach_trans {a b c : String} (h1 : statusReach a b)
    (h2 : statusReach b c) : statusReach a c := by
  rcases h1 with rfl | ⟨ha, hb⟩ | ⟨ha, hb⟩
  · exact h2
  · rcases h2 with rfl | ⟨hb', hc⟩ | ⟨hb', hc⟩
    · exact Or.inr (Or.inl ⟨ha, hb⟩)
    · rcases hb with rfl | rfl | rfl <;> exact absurd hb' (by decide)
    · exact Or.inr (Or.inl ⟨ha, Or.inr (Or.inr hc)⟩)
  · rcases h2 with rfl | ⟨hb', hc⟩ | ⟨hb', hc⟩
    · exact Or.inr (Or.inr ⟨ha, hb⟩)
    · rw [hb] at hb'; exact absurd hb' (by decide)
    · rw [hb] at hb'; exact absurd hb' (by decide)

/-- One operation moves each pre-existing ledger entry along an allowed
status transition and fixes every entry whose status is neither "pending"
nor "approved". -/
theorem applyOp_entry (st : AppState) (op : Op) (i : Nat) (e : LedgerEntry)
    (h : st.ledger[i]? = some e) :
    ∃ e', (applyOp st op).ledger[i]? = some e' ∧ statusReach e.status e'.status ∧
      (e.status ≠ "pending" → e.status ≠ "approved" → e' = e) := by
  cases op with
  | submit kid ck now =>
    show ∃ e', (submit_chore_db st kid ck now).ledger[i]? = some e' ∧ _
    rcases hf : st.chores.find? (fun c => c.chore_key == ck) with _ | chore
    · refine ⟨e, ?_, Or.inl rfl, fun _ _ => rfl⟩
      unfold submit_chore_db; rw [hf]; exact h
    · refine ⟨e, ?_, Or.inl rfl, fun _ _ => rfl⟩
      unfold submit_chore_db; rw [hf]
      have hlt : i < st.ledger.length := (List.getElem?_eq_some.mp h).1
      show (st.ledger ++ _)[i]? = some e
      rw [List.getElem?_append_left hlt]
      exact h
  | approveDeny lid approve =>
    refine ⟨if e.id = lid ∧ e.status = "pending" then
        { e with status := if approve then "approved" else "denied" } else e,
      ?_, ?_, ?_⟩
    · show (st.ledger.map _)[i]? = _
      rw [List.getElem?_map, h]
      rfl
    · by_cases hc : e.id = lid ∧ e.status = "pending"
      · rw [if_pos hc]
        refine Or.inr (Or.inl ⟨hc.2, ?_⟩)
        cases approve
        · exact Or.inr (Or.inl rfl)
        · exact Or.inl rfl
      · rw [if_neg hc]
        exact Or.inl rfl
    · intro hp _
      rw [if_neg (fun hcc => hp hcc.2)]
  | markPaid kid =>
    refine ⟨if e.kid_name = kid ∧ e.status = "approved" then
        { e with status := "paid" } else e, ?_, ?_, ?_⟩
    · show (st.ledger.map _)[i]? = _
      rw [List.getElem?_map, h]
      rfl
    · by_cases hc : e.kid_name = kid ∧ e.status = "approved"
      · rw [if_pos hc]
        exact Or.inr (Or.inr ⟨hc.2, rfl⟩)
      · rw [if_neg hc]
        exact Or.inl rfl
    · intro _ ha
      rw [if_neg (fun hcc => ha hcc.2)]

/-- A sequence of operations moves each pre-existing ledger entry along an
allowed status evolution and fixes entries that are neither "pending" nor
"approved". -/
theorem applyOps_entry (ops : List Op) (st : AppState) (i : Nat)
    (e : LedgerEntry) (h : st.ledger[i]? = some e) :
    ∃ e', (applyOps st ops).ledger[i]? = some e' ∧ statusReach e.status e'.status ∧
      (e.status ≠ "pending" → e.status ≠ "approved" → e' = e) := by
  induction ops generalizing st e with
  | nil => exact ⟨e, h, Or.inl rfl, fun _ _ => rfl⟩
  | cons op ops ih =>
    obtain ⟨e1, h1, r1, f1⟩ := applyOp_entry st op i e h
    obtain ⟨e', h', r', f'⟩ := ih (applyOp st op) e1 h1
    refine ⟨e', h', statusReach_trans r1 r', ?_⟩
    intro hp ha
    rw [f1 hp ha] at r' f'
    exact f' hp ha

/-- C5: over any sequence of `submit_chore_db` / `approve_deny_db` /
`mark_paid_db` operations, a ledger entry's status only evolves along
pending → (approved | denied), approved → paid (possibly through approved to
paid), and an entry already "denied" or "paid" is never changed by any
operation. -/
theorem C5_status_monotone (st : AppState) (ops : List Op) (i : Nat)
    (e e' : LedgerEntry) (h : st.ledger[i]? = some e)
    (h' : (applyOps st ops).ledger[i]? = some e') :
    statusReach e.status e'.status ∧
      ((e.status = "denied" ∨ e.status = "paid") → e' = e) := by
  obtain ⟨e'', h'', r, f⟩ := applyOps_entry ops st i e h
  rw [h''] at h'
  injection h' with h'
  subst h'
  refine ⟨r, fun hd => ?_⟩
  rcases hd with hd | hd <;>
    exact f (by rw [hd]; decide) (by rw [hd]; decide)

/-- Witness for C5 at a concrete run: paying Ann moves her approved
"Make bed" entry to "paid", an allowed evolution. -/
theorem C5_status_monotone_witness :
    statusReach (ann_entry "approved").status (ann_entry "paid").status ∧
      (((ann_entry "approved").status = "denied" ∨
          (ann_entry "approved").status = "paid") →
        ann_entry "paid" = ann_entry "approved") :=
  C5_status_monotone ann_state [Op.markPaid "Ann"] 0 (ann_entry "approved")
    (ann_entry "paid") rfl rfl

/-- The one-step equation of `streak_loop` on positive fuel. -/
theorem streak_loop_succ (days : List Int) (d : Int) (n : Nat) :
    streak_loop days d (n + 1) =
      if d ∈ days then streak_loop days (d - 1) n + 1 else 0 := rfl

/-- `streak_loop` makes at most `fuel` steps. -/
theorem streak_loop_le (days : List Int) (d : Int) (fuel : Nat) :
    streak_loop days d fuel ≤ fuel := by
  induction fuel generalizing d with
  | zero => exact Nat.le_refl 0
  | succ n ih =>
    rw [streak_loop_succ]
    split
    · exact Nat.succ_le_succ (ih _)
    · exact Nat.zero_le _

/-- Every day the loop stepped over is a collected day: walking backward from
`d`, the first `streak_loop days d fuel` days are all in `days`. -/
theorem streak_loop_mem (days : List Int) (d : Int) (fuel : Nat) :
    ∀ i : Nat, i < streak_loop days d fuel → d - (i : Int) ∈ days := by
  induction fuel generalizing d with
  | zero => intro i hi; simp [streak_loop] at hi
  | succ n ih =>
    intro i hi
    rw [streak_loop_succ] at hi
    by_cases hd : d ∈ days
    · rw [if_pos hd] at hi
      cases i with
      | zero => simpa using hd
      | succ j =>
        have hj : j < streak_loop days (d - 1) n := by omega
        have hmem := ih (d - 1) j hj
        have heq : d - ((j : Int) + 1) = d - 1 - (j : Int) := by ring
        push_cast
        rw [heq]
        exact hmem
    · rw [if_neg hd] at hi
      omega

/-- When the loop stops before running out of fuel, it stopped because the
next day backward is missing. -/
theorem streak_loop_stop (days : List Int) (d : Int) (fuel : Nat)
    (h : streak_loop days d fuel < fuel) :
    d - (streak_loop days d fuel : Int) ∉ days := by
  induction fuel generalizing d with
  | zero => omega
  | succ n ih =>
    by_cases hd : d ∈ days
    · have hrw : streak_loop days d (n + 1) = streak_loop days (d - 1) n + 1 := by
        rw [streak_loop_succ, if_pos hd]
      rw [hrw] at h ⊢
      have hstop := ih (d - 1) (by omega)
      intro hmem
      apply hstop
      have heq : d - ((streak_loop days (d - 1) n : Int) + 1) =
          d - 1 - (streak_loop days (d - 1) n : Int) := by ring
      push_cast at hmem
      rwa [heq] at hmem
    · have hrw : streak_loop days d (n + 1) = 0 := by
        rw [streak_loop_succ, if_neg hd]
      rw [hrw]
      simpa using hd

/-- With fuel one more than the number of collected days, the loop always
stops by its own exit test: the walked days are pairwise distinct members of
`days`, so there can be at most `days.length` iterations. -/
theorem streak_loop_lt (days : List Int) (d : Int) :
    streak_loop days d (days.length + 1) < days.length + 1 := by
  by_contra hcon
  push_neg at hcon
  have hle := streak_loop_le days d (days.length + 1)
  have heq : streak_loop days d (days.length + 1) = days.length + 1 :=
    Nat.le_antisymm hle hcon
  have hsub : (Finset.range (days.length + 1)).image (fun i : Nat => d - (i : Int)) ⊆
      days.toFinset := by
    intro x hx
    rcases Finset.mem_image.mp hx with ⟨i, hi, rfl⟩
    exact List.mem_toFinset.mpr
      (streak_loop_mem days d (days.length + 1) i (by rw [heq]; exact Finset.mem_range.mp hi))
  have hinj : Function.Injective (fun i : Nat => d - (i : Int)) := by
    intro i j hij
    simp only at hij
    omega
  have hcard := Finset.card_le_card hsub
  rw [Finset.card_image_of_injective _ hinj, Finset.card_range] at hcard
  have := List.toFinset_card_le days
  omega

/-- Ann has a qualifying entry on day 10 (approved) and day 9 (paid), and a
denied one on day 8, under the date map sending a timestamp to itself. -/
def two_day_state : AppState :=
  { kids := [{ name := "Ann", goal_cents := 0 }],
    chores := default_chores,
    ledger := [{ id := 0, kid_name := "Ann", chore_key := "make_bed",
                 chore_title := "Make bed", reward_cents := 50, ts := 10,
                 status := "approved" },
               { id := 1, kid_name := "Ann", chore_key := "trash",
                 chore_title := "Take out trash", reward_cents := 75, ts := 9,
                 status := "paid" },
               { id := 2, kid_name := "Ann", chore_key := "dishes",
                 chore_title := "Unload dishwasher", reward_cents := 100, ts := 8,
                 status := "denied" }],
    next_id := 3 }

/-- C8: `streak_for_kid` walks backward from today, counting consecutive
days on which the kid has at least one non-denied entry and stopping at the
first missing day: every counted day carries such an entry, the day right
after the count carries none, a kid without a qualifying entry today has
streak 0 regardless of the past, and a day qualifies exactly when some
entry of the kid with status in {pending, approved, paid} falls on it.
Concretely, qualifying entries on day 10 (today) and 9 with only a denied
entry on day 8 give streak 2. -/
theorem C8_streak (dateOf : Nat → Int) (today : Int) (st : AppState) (kid : String) :
    (∀ i : Nat, i < streak_for_kid dateOf today st kid →
        today - (i : Int) ∈ streak_days dateOf st kid)
  ∧ today - (streak_for_kid dateOf today st kid : Int) ∉ streak_days dateOf st kid
  ∧ (today ∉ streak_days dateOf st kid → streak_for_kid dateOf today st kid = 0)
  ∧ (∀ d : Int, d ∈ streak_days dateOf st kid ↔
       ∃ e ∈ st.ledger, e.kid_name = kid ∧ streak_counts e.status ∧ dateOf e.ts = d)
  ∧ streak_for_kid (fun ts => (ts : Int)) 10 two_day_state "Ann" = 2 := by
  refine ⟨?_, ?_, ?_, ?_, ?_⟩
  · exact fun i hi =>
      streak_loop_mem (streak_days dateOf st kid) today
        ((streak_days dateOf st kid).length + 1) i hi
  · exact streak_loop_stop (streak_days dateOf st kid) today
      ((streak_days dateOf st kid).length + 1)
      (streak_loop_lt (streak_days dateOf st kid) today)
  · intro h
    show streak_loop (streak_days dateOf st kid) today
      ((streak_days dateOf st kid).length + 1) = 0
    rw [streak_loop_succ, if_neg h]
  · intro d
    simp only [streak_days, List.mem_map, List.mem_filter, Bool.and_eq_true,
      beq_iff_eq]
    constructor
    · rintro ⟨e, ⟨he, hk, hs⟩, hd⟩
      exact ⟨e, he, hk, hs, hd⟩
    · rintro ⟨e, he, hk, hs, hd⟩
      exact ⟨e, ⟨he, hk, hs⟩, hd⟩
  · rfl

end ChoresApp
